import Mathlib

/-!
# mesheryctl `system token` handlers

A shallow embedding of `mesheryctl/internal/cli/root/system/token.go`.

The five `RunE` closures (create, delete, set, list, view) are sequential
programs over process-wide state: the flag variables `tokenPath`, `ctx` and
`viewAllTokens`, the viper settings, the logrus output and the persisted
meshconfig.  Each closure is embedded as a function from a `State` to an
`Outcome` and a new `State`.  The functions of the `config` and `utils`
packages that the closures call are not part of this file of the repository;
they are taken as parameters, collected in `Env`.  The state carries a ghost
trace of the calls made to them, so that which collaborator was called, how
often and with which arguments can be stated.
-/

namespace Meshery

/-! ## Errors (`github.com/pkg/errors`) -/

/-- A Go `error` value, as built by `errors.New`, `errors.Errorf` and
`errors.Wrap`: either a plain message or a cause wrapped with a message. -/
inductive GoError where
  | base (msg : String)
  | wrap (cause : GoError) (msg : String)
  deriving DecidableEq, Repr

/-- The `Error()` method: a wrapped error prints its message, a colon and a
space, and then the message of its cause. -/
def GoError.Error : GoError → String
  | .base msg => msg
  | .wrap cause msg => msg ++ ": " ++ cause.Error

/-- The call `errors.Wrap(err, message)` for a non-nil `err`. -/
def Wrap (err : GoError) (message : String) : GoError := .wrap err message

/-- The call `errors.Wrapf(err, format, args...)` for a non-nil `err`, the
format already applied. -/
def Wrapf (err : GoError) (formatted : String) : GoError := .wrap err formatted

/-- The call `errors.Errorf(format, args...)`, the format already applied. -/
def Errorf (formatted : String) : GoError := .base formatted

/-! ## Data model (`config` package) -/

/-- The struct `config.Token`. -/
structure Token where
  Name : String
  Location : String
  deriving DecidableEq, Repr

/-- Modelled from the spec: the declaration of `config.MesheryCtlConfig` is
outside this file.  The spec describes it as the aggregate holding the ordered
collection of tokens and the assignment of a token name to each context name;
the handlers read only `Tokens`. -/
structure MesheryCtlConfig where
  Tokens : List Token
  Contexts : List (String × String)
  deriving DecidableEq, Repr

/-! ## Output (`logrus`) -/

/-- The logrus levels the handlers write at. -/
inductive Level where
  | info
  | warn
  deriving DecidableEq, Repr

/-- One entry written to the log stream. -/
structure LogEntry where
  level : Level
  msg : String
  deriving DecidableEq, Repr

/-! ## Collaborators and state -/

/-- One call to a function of the `config` package, with its arguments. -/
inductive Call where
  | ReadConfig (path : String)
  | WriteConfig (cfg : MesheryCtlConfig)
  | AddTokenToConfig (token : Token) (path : String)
  | DeleteTokenFromConfig (token : Token) (cfg : MesheryCtlConfig)
  | SetTokenToConfig (tokenName : String) (cfg : MesheryCtlConfig) (ctx : String)
  | GetTokenForContext (cfg : MesheryCtlConfig) (ctx : String)
  deriving DecidableEq, Repr

/-- Whether a call is a call of `config.WriteConfig`. -/
def Call.isWriteConfig : Call → Bool
  | .WriteConfig _ => true
  | _ => false

/-- The collaborators of the handlers, over a type `D` of contents of the
persisted meshconfig.  A Go result `(value, error)` is an `Except`; a Go result
`error` is an `Option`, `none` for `nil`.  `ReadConfig` only reads the persisted
config; `WriteConfig` and `AddTokenToConfig` may change it; the other three work
on the struct in memory. -/
structure Env (D : Type) where
  DefaultConfigPath : String
  ReadConfig : String → D → Except GoError MesheryCtlConfig
  WriteConfig : MesheryCtlConfig → D → Option GoError × D
  AddTokenToConfig : Token → String → D → Option GoError × D
  DeleteTokenFromConfig : Token → MesheryCtlConfig → Except GoError MesheryCtlConfig
  SetTokenToConfig : String → MesheryCtlConfig → String → Except GoError MesheryCtlConfig
  GetTokenForContext : MesheryCtlConfig → String → Except GoError Token

/-- The state a handler runs in: the persisted config, the package-level flag
variables, the viper settings (`viper.GetString`), the log written so far and
the trace of collaborator calls made so far. -/
structure State (D : Type) where
  disk : D
  tokenPath : String
  ctx : String
  viewAllTokens : Bool
  viper : String → String
  logged : List LogEntry
  calls : List Call

/-- How a `RunE` closure ends: it returns an `error` (`none` for `nil`), or it
panics on `args[0]` of an empty slice. -/
inductive Outcome where
  | ret (err : Option GoError)
  | panic
  deriving DecidableEq, Repr

variable {D : Type}

/-- Append one entry to the log. -/
def State.log (s : State D) (level : Level) (msg : String) : State D :=
  { s with logged := s.logged ++ [⟨level, msg⟩] }

/-- Append one call to the trace. -/
def State.record (s : State D) (c : Call) : State D :=
  { s with calls := s.calls ++ [c] }

/-! ## The handlers -/

/-- The `RunE` closure of `createTokenCmd`. -/
def createTokenCmd.RunE (env : Env D) (args : List String) (s : State D) :
    Outcome × State D :=
  match args with
  | [] => (.panic, s)
  | tokenName :: _ =>
    let s := if s.tokenPath = "" then { s with tokenPath := "auth.json" } else s
    let token : Token := { Name := tokenName, Location := s.tokenPath }
    let r := env.AddTokenToConfig token env.DefaultConfigPath s.disk
    let s := { s.record (.AddTokenToConfig token env.DefaultConfigPath) with disk := r.2 }
    match r.1 with
    | some err => (.ret (some (Wrap err "Could not create specified token to config")), s)
    | none => (.ret none, s.log .info ("Token " ++ tokenName ++ " created."))

/-- The `RunE` closure of `deleteTokenCmd`. -/
def deleteTokenCmd.RunE (env : Env D) (args : List String) (s : State D) :
    Outcome × State D :=
  match args with
  | [] => (.panic, s)
  | tokenName :: _ =>
    let token : Token := { Name := tokenName, Location := s.tokenPath }
    let s := s.record (.ReadConfig env.DefaultConfigPath)
    match env.ReadConfig env.DefaultConfigPath s.disk with
    | .error err => (.ret (some err), s)
    | .ok mctlCfg =>
      let s := s.record (.DeleteTokenFromConfig token mctlCfg)
      match env.DeleteTokenFromConfig token mctlCfg with
      | .error err =>
        (.ret (some (Wrapf err ("Could not delete token \"" ++ tokenName ++ "\" from config"))), s)
      | .ok mctlCfg =>
        let r := env.WriteConfig mctlCfg s.disk
        let s := { s.record (.WriteConfig mctlCfg) with disk := r.2 }
        match r.1 with
        | some err => (.ret (some err), s)
        | none => (.ret none, s.log .info ("Token " ++ tokenName ++ " deleted."))

/-- The `RunE` closure of `setTokenCmd`.  The result of `config.WriteConfig` is
dropped by the source; the `err` tested after it is the one assigned by
`config.SetTokenToConfig`, which is `nil` on that path. -/
def setTokenCmd.RunE (env : Env D) (args : List String) (s : State D) :
    Outcome × State D :=
  match args with
  | [] => (.panic, s)
  | tokenName :: _ =>
    let s := if s.ctx = "" then { s with ctx := s.viper "current-context" } else s
    let s := s.record (.ReadConfig env.DefaultConfigPath)
    match env.ReadConfig env.DefaultConfigPath s.disk with
    | .error err => (.ret (some err), s)
    | .ok mctlCfg =>
      let s := s.record (.SetTokenToConfig tokenName mctlCfg s.ctx)
      match env.SetTokenToConfig tokenName mctlCfg s.ctx with
      | .error err =>
        (.ret (some (Wrapf err
          ("Could not set token \"" ++ tokenName ++ "\" on context " ++ s.ctx))), s)
      | .ok mctlCfg =>
        let err : Option GoError := none
        let r := env.WriteConfig mctlCfg s.disk
        let s := { s.record (.WriteConfig mctlCfg) with disk := r.2 }
        match err with
        | some err => (.ret (some err), s)
        | none =>
          (.ret none, s.log .info ("Token " ++ tokenName ++ " set for context " ++ s.ctx))

/-- The `RunE` closure of `listTokenCmd`. -/
def listTokenCmd.RunE (env : Env D) (_args : List String) (s : State D) :
    Outcome × State D :=
  let s := s.record (.ReadConfig env.DefaultConfigPath)
  match env.ReadConfig env.DefaultConfigPath s.disk with
  | .error err => (.ret (some err), s)
  | .ok mctlCfg =>
    let s := s.log .info "Available tokens: "
    let s := mctlCfg.Tokens.foldl (fun s t => s.log .info t.Name) s
    (.ret none, s)

/-- The loop of `viewTokenCmd` over `mctlCfg.Tokens` that looks for the token
named `tokenName`: the first match is printed and the closure returns `nil`;
when the range is exhausted the closure returns the not-found error. -/
def viewTokenCmd.findLoop (tokenName : String) : List Token → State D → Outcome × State D
  | [], s => (.ret (some (Errorf ("Token " ++ tokenName ++ " could not be found."))), s)
  | t :: ts, s =>
    if t.Name = tokenName then
      let s := s.log .info ("token: " ++ t.Name)
      let s := s.log .info ("location: " ++ t.Location)
      (.ret none, s)
    else viewTokenCmd.findLoop tokenName ts s

/-- The `RunE` closure of `viewTokenCmd`. -/
def viewTokenCmd.RunE (env : Env D) (args : List String) (s : State D) :
    Outcome × State D :=
  let s := s.record (.ReadConfig env.DefaultConfigPath)
  match env.ReadConfig env.DefaultConfigPath s.disk with
  | .error err => (.ret (some err), s)
  | .ok mctlCfg =>
    if s.viewAllTokens then
      let s := s.log .info "Listing all available tokens...\n"
      let s := mctlCfg.Tokens.foldl
        (fun s t => (s.log .info ("-> token: " ++ t.Name)).log .info ("   location: " ++ t.Location)) s
      (.ret none, s)
    else
      match args with
      | [] =>
        let s := s.record (.GetTokenForContext mctlCfg (s.viper "current-context"))
        match env.GetTokenForContext mctlCfg (s.viper "current-context") with
        | .error err => (.ret (some (Wrap err "Could not get token for the current context")), s)
        | .ok token =>
          let s := s.log .warn
            ("Token unspecified. Displaying token for current context \"" ++
              s.viper "current-context" ++ "\"\n")
          let s := s.log .info ("token: " ++ token.Name)
          let s := s.log .info ("location: " ++ token.Location)
          (.ret none, s)
      | tokenName :: _ => viewTokenCmd.findLoop tokenName mctlCfg.Tokens s

/-- The two lines `viewTokenCmd` prints for a token under `--all`. -/
def viewAllBlock (t : Token) : List LogEntry :=
  [⟨.info, "-> token: " ++ t.Name⟩, ⟨.info, "   location: " ++ t.Location⟩]

/-- Whether `returned` is `underlying` wrapped by one more message, which is how
a handler puts a contextual message in front of the message of an error. -/
def GoError.wraps (returned underlying : GoError) : Bool :=
  match returned with
  | .wrap cause _ => decide (cause = underlying)
  | .base _ => false

/-! ## An example environment

A small file-backed instance of the collaborators, on which the handlers can be
evaluated: the persisted config is either absent or holds a config, and the
file is writable or not. -/

/-- Contents of the example meshconfig file. -/
structure Disk where
  content : Option MesheryCtlConfig
  writable : Bool
  deriving DecidableEq, Repr

/-- Example read: fails when the file is absent. -/
def Disk.read (path : String) (d : Disk) : Except GoError MesheryCtlConfig :=
  match d.content with
  | none => .error (.base ("open " ++ path ++ ": no such file or directory"))
  | some cfg => .ok cfg

/-- Example write: fails when the file is not writable. -/
def Disk.write (cfg : MesheryCtlConfig) (d : Disk) : Option GoError × Disk :=
  if d.writable then (none, { d with content := some cfg })
  else (some (.base "permission denied"), d)

/-- Example add: reads the file, appends the token, writes the file. -/
def Disk.addToken (token : Token) (path : String) (d : Disk) : Option GoError × Disk :=
  match d.read path with
  | .error err => (some err, d)
  | .ok cfg => d.write { cfg with Tokens := cfg.Tokens ++ [token] }

/-- Example removal: fails when no token has the name. -/
def exampleDelete (token : Token) (cfg : MesheryCtlConfig) : Except GoError MesheryCtlConfig :=
  if cfg.Tokens.any (fun t => t.Name = token.Name) then
    .ok { cfg with Tokens := cfg.Tokens.filter (fun t => t.Name ≠ token.Name) }
  else .error (.base ("no token found with the name " ++ token.Name))

/-- Example assignment: fails when no token has the name. -/
def exampleSet (tokenName : String) (cfg : MesheryCtlConfig) (ctx : String) :
    Except GoError MesheryCtlConfig :=
  if cfg.Tokens.any (fun t => t.Name = tokenName) then
    .ok { cfg with Contexts := (ctx, tokenName) :: cfg.Contexts.filter (fun p => p.1 ≠ ctx) }
  else .error (.base ("no token found with the name " ++ tokenName))

/-- Example lookup of the token assigned to a context. -/
def exampleGet (cfg : MesheryCtlConfig) (ctx : String) : Except GoError Token :=
  match cfg.Contexts.find? (fun p => p.1 = ctx) with
  | none => .error (.base ("no token is assigned to the context " ++ ctx))
  | some p =>
    match cfg.Tokens.find? (fun t => t.Name = p.2) with
    | none => .error (.base ("no token found with the name " ++ p.2))
    | some t => .ok t

/-- The example collaborators. -/
def exampleEnv : Env Disk where
  DefaultConfigPath := "config.yaml"
  ReadConfig := Disk.read
  WriteConfig := Disk.write
  AddTokenToConfig := Disk.addToken
  DeleteTokenFromConfig := exampleDelete
  SetTokenToConfig := exampleSet
  GetTokenForContext := exampleGet

/-- An example config: two tokens, the context `local` assigned to `foo`. -/
def exampleConfig : MesheryCtlConfig where
  Tokens := [⟨"foo", "auth.json"⟩, ⟨"bar", "/tmp/bar.json"⟩]
  Contexts := [("local", "foo")]

/-- An example state over a given file: no flag set, current context `local`,
nothing logged, no call made. -/
def exampleState (d : Disk) : State Disk where
  disk := d
  tokenPath := ""
  ctx := ""
  viewAllTokens := false
  viper := fun key => if key = "current-context" then "local" else ""
  logged := []
  calls := []

/-! ## Auxiliary facts -/

section Aux

variable {D : Type}

/-- The log after the loop of `listTokenCmd`. -/
theorem listLoop_logged (ts : List Token) (s : State D) :
    (ts.foldl (fun s t => s.log .info t.Name) s).logged =
      s.logged ++ ts.map (fun t => (⟨.info, t.Name⟩ : LogEntry)) := by
  induction ts generalizing s with
  | nil => simp
  | cons t ts ih =>
    rw [List.foldl_cons, ih]
    simp [State.log]

/-- The loop of `listTokenCmd` touches neither the trace nor the persisted config. -/
theorem listLoop_frame (ts : List Token) (s : State D) :
    (ts.foldl (fun s t => s.log .info t.Name) s).calls = s.calls ∧
    (ts.foldl (fun s t => s.log .info t.Name) s).disk = s.disk := by
  induction ts generalizing s with
  | nil => simp
  | cons t ts ih =>
    rw [List.foldl_cons, (ih _).1, (ih _).2]
    simp [State.log]

/-- The log after the `--all` loop of `viewTokenCmd`. -/
theorem viewAllLoop_logged (ts : List Token) (s : State D) :
    (ts.foldl (fun s t =>
        (s.log .info ("-> token: " ++ t.Name)).log .info ("   location: " ++ t.Location)) s).logged =
      s.logged ++ (ts.map viewAllBlock).flatten := by
  induction ts generalizing s with
  | nil => simp
  | cons t ts ih =>
    rw [List.foldl_cons, ih]
    simp [State.log, viewAllBlock]

/-- The search loop of `viewTokenCmd` fails exactly when no token has the name,
and then prints nothing. -/
theorem findLoop_not_found (tokenName : String) (ts : List Token) (s : State D) :
    ((viewTokenCmd.findLoop tokenName ts s).1 =
        .ret (some (Errorf ("Token " ++ tokenName ++ " could not be found."))) ↔
      ∀ t ∈ ts, t.Name ≠ tokenName) ∧
    ((∀ t ∈ ts, t.Name ≠ tokenName) → (viewTokenCmd.findLoop tokenName ts s).2 = s) := by
  induction ts with
  | nil => simp [viewTokenCmd.findLoop]
  | cons t ts ih =>
    by_cases h : t.Name = tokenName
    · simp [viewTokenCmd.findLoop, h]
    · simp only [viewTokenCmd.findLoop, h, if_false, List.forall_mem_cons, ne_eq,
        not_false_eq_true, true_and]
      exact ih

/-- The search loop of `viewTokenCmd` stops at the first token with the name. -/
theorem findLoop_first (tokenName : String) (pre : List Token) (t : Token) (post : List Token)
    (s : State D) (hpre : ∀ u ∈ pre, u.Name ≠ tokenName) (ht : t.Name = tokenName) :
    viewTokenCmd.findLoop tokenName (pre ++ t :: post) s =
      (.ret none, (s.log .info ("token: " ++ t.Name)).log .info ("location: " ++ t.Location)) := by
  induction pre with
  | nil => simp [viewTokenCmd.findLoop, ht]
  | cons u us ih =>
    have hu : u.Name ≠ tokenName := hpre u (by simp)
    have hus : ∀ v ∈ us, v.Name ≠ tokenName := fun v hv => hpre v (by simp [hv])
    simp [viewTokenCmd.findLoop, hu, ih hus]

/-- A list with an element of the given name splits at the first such element. -/
theorem exists_first_named (tokenName : String) (ts : List Token)
    (h : ∃ t ∈ ts, t.Name = tokenName) :
    ∃ pre t post, ts = pre ++ t :: post ∧ (∀ u ∈ pre, u.Name ≠ tokenName) ∧ t.Name = tokenName := by
  induction ts with
  | nil => simp at h
  | cons a ts ih =>
    by_cases ha : a.Name = tokenName
    · exact ⟨[], a, ts, by simp, by simp, ha⟩
    · have h2 : ∃ t ∈ ts, t.Name = tokenName := by
        obtain ⟨t, ht, hn⟩ := h
        rcases List.mem_cons.mp ht with rfl | ht
        · exact absurd hn ha
        · exact ⟨t, ht, hn⟩
      obtain ⟨pre, t, post, hsplit, hpre, ht⟩ := ih h2
      refine ⟨a :: pre, t, post, by simp [hsplit], ?_, ht⟩
      intro u hu
      rcases List.mem_cons.mp hu with rfl | hu
      · exact ha
      · exact hpre u hu

end Aux

/-! ## The claims -/

section Claims

variable {D : Type}

/-- C1 (the code departs from the claim): when the config load and
`SetTokenToConfig` succeed and `WriteConfig` fails, the `set` handler still
returns `nil` and logs that the token was set, because the result of
`WriteConfig` is dropped and the error tested afterwards is the `nil` left by
`SetTokenToConfig`. -/
theorem set_write_failure_reported_as_success (env : Env D) (s : State D)
    (tokenName : String) (rest : List String) (cfg cfg' : MesheryCtlConfig) (werr : GoError)
    (hread : env.ReadConfig env.DefaultConfigPath s.disk = .ok cfg)
    (hset : env.SetTokenToConfig tokenName cfg
      (if s.ctx = "" then s.viper "current-context" else s.ctx) = .ok cfg')
    (_hwrite : (env.WriteConfig cfg' s.disk).1 = some werr) :
    (setTokenCmd.RunE env (tokenName :: rest) s).1 = .ret none ∧
    (setTokenCmd.RunE env (tokenName :: rest) s).2.logged =
      s.logged ++ [⟨.info, "Token " ++ tokenName ++ " set for context " ++
        (if s.ctx = "" then s.viper "current-context" else s.ctx)⟩] := by
  by_cases h : s.ctx = ""
  · simp only [h, if_true] at hset
    simp [setTokenCmd.RunE, State.record, State.log, h, hread, hset]
  · simp only [h, if_false] at hset
    simp [setTokenCmd.RunE, State.record, State.log, h, hread, hset]

/-- C1, at a concrete input: the file is not writable, the token `foo` exists,
and `set foo` returns `nil` and logs success. -/
theorem set_write_failure_reported_as_success_witness :
    (exampleEnv.WriteConfig
        { exampleConfig with Contexts := [("local", "foo")] }
        (exampleState ⟨some exampleConfig, false⟩).disk).1 = some (.base "permission denied") ∧
    (setTokenCmd.RunE exampleEnv ["foo"] (exampleState ⟨some exampleConfig, false⟩)).1 = .ret none ∧
    (setTokenCmd.RunE exampleEnv ["foo"] (exampleState ⟨some exampleConfig, false⟩)).2.logged =
      [⟨.info, "Token foo set for context local"⟩] :=
  ⟨by decide,
   (set_write_failure_reported_as_success exampleEnv (exampleState ⟨some exampleConfig, false⟩)
      "foo" [] exampleConfig { exampleConfig with Contexts := [("local", "foo")] }
      (.base "permission denied") rfl rfl (by decide)).1,
   by decide⟩

/-- C2: when the config loads and `DeleteTokenFromConfig` fails, the `delete`
handler returns the accessor error wrapped with the message naming the token,
`WriteConfig` is not called, and the persisted config is unchanged. -/
theorem delete_removal_failure (env : Env D) (s : State D)
    (tokenName : String) (rest : List String) (cfg : MesheryCtlConfig) (e : GoError)
    (hread : env.ReadConfig env.DefaultConfigPath s.disk = .ok cfg)
    (hdel : env.DeleteTokenFromConfig ⟨tokenName, s.tokenPath⟩ cfg = .error e) :
    (deleteTokenCmd.RunE env (tokenName :: rest) s).1 =
      .ret (some (.wrap e ("Could not delete token \"" ++ tokenName ++ "\" from config"))) ∧
    (deleteTokenCmd.RunE env (tokenName :: rest) s).2.calls =
      s.calls ++ [.ReadConfig env.DefaultConfigPath,
        .DeleteTokenFromConfig ⟨tokenName, s.tokenPath⟩ cfg] ∧
    (deleteTokenCmd.RunE env (tokenName :: rest) s).2.calls.countP Call.isWriteConfig =
      s.calls.countP Call.isWriteConfig ∧
    (deleteTokenCmd.RunE env (tokenName :: rest) s).2.disk = s.disk ∧
    (deleteTokenCmd.RunE env (tokenName :: rest) s).2.logged = s.logged := by
  simp [deleteTokenCmd.RunE, State.record, hread, hdel, Wrapf, Call.isWriteConfig]

/-- C2, at a concrete input: deleting the absent token `baz`. -/
theorem delete_removal_failure_witness :
    (deleteTokenCmd.RunE exampleEnv ["baz"] (exampleState ⟨some exampleConfig, true⟩)).1 =
      .ret (some (.wrap (.base "no token found with the name baz")
        "Could not delete token \"baz\" from config")) ∧
    (deleteTokenCmd.RunE exampleEnv ["baz"] (exampleState ⟨some exampleConfig, true⟩)).2.disk =
      ⟨some exampleConfig, true⟩ :=
  ⟨(delete_removal_failure exampleEnv (exampleState ⟨some exampleConfig, true⟩) "baz" []
      exampleConfig (.base "no token found with the name baz") rfl rfl).1,
   (delete_removal_failure exampleEnv (exampleState ⟨some exampleConfig, true⟩) "baz" []
      exampleConfig (.base "no token found with the name baz") rfl rfl).2.2.2.1⟩

/-- C3: with the config loaded, the `all` flag unset and a name given, `view`
returns the not-found error exactly when no token of `config.Tokens` has the
name (and then prints nothing); when some token has it, `view` returns `nil`;
and whenever `t` is the first token with the name, the output is exactly the
name line and the location line of `t`. -/
theorem view_by_name (env : Env D) (s : State D) (tokenName : String) (rest : List String)
    (cfg : MesheryCtlConfig)
    (hread : env.ReadConfig env.DefaultConfigPath s.disk = .ok cfg)
    (hall : s.viewAllTokens = false) :
    ((viewTokenCmd.RunE env (tokenName :: rest) s).1 =
        .ret (some (Errorf ("Token " ++ tokenName ++ " could not be found."))) ↔
      ∀ t ∈ cfg.Tokens, t.Name ≠ tokenName) ∧
    ((∀ t ∈ cfg.Tokens, t.Name ≠ tokenName) →
      (viewTokenCmd.RunE env (tokenName :: rest) s).2.logged = s.logged) ∧
    ((∃ t ∈ cfg.Tokens, t.Name = tokenName) →
      (viewTokenCmd.RunE env (tokenName :: rest) s).1 = .ret none) ∧
    (∀ pre t post, cfg.Tokens = pre ++ t :: post → (∀ u ∈ pre, u.Name ≠ tokenName) →
      t.Name = tokenName →
      (viewTokenCmd.RunE env (tokenName :: rest) s).1 = .ret none ∧
      (viewTokenCmd.RunE env (tokenName :: rest) s).2.logged =
        s.logged ++ [⟨.info, "token: " ++ t.Name⟩, ⟨.info, "location: " ++ t.Location⟩]) := by
  have hrun : viewTokenCmd.RunE env (tokenName :: rest) s =
      viewTokenCmd.findLoop tokenName cfg.Tokens (s.record (.ReadConfig env.DefaultConfigPath)) := by
    simp [viewTokenCmd.RunE, State.record, hread, hall]
  have hfirst : ∀ pre t post, cfg.Tokens = pre ++ t :: post → (∀ u ∈ pre, u.Name ≠ tokenName) →
      t.Name = tokenName →
      (viewTokenCmd.RunE env (tokenName :: rest) s).1 = .ret none ∧
      (viewTokenCmd.RunE env (tokenName :: rest) s).2.logged =
        s.logged ++ [⟨.info, "token: " ++ t.Name⟩, ⟨.info, "location: " ++ t.Location⟩] := by
    intro pre t post hsplit hpre ht
    rw [hrun, hsplit, findLoop_first tokenName pre t post _ hpre ht]
    simp [State.log, State.record]
  refine ⟨?_, ?_, ?_, hfirst⟩
  · rw [hrun]
    exact (findLoop_not_found tokenName cfg.Tokens _).1
  · intro hno
    rw [hrun, (findLoop_not_found tokenName cfg.Tokens _).2 hno]
    simp [State.record]
  · intro hex
    obtain ⟨pre, t, post, hsplit, hpre, ht⟩ := exists_first_named tokenName cfg.Tokens hex
    exact (hfirst pre t post hsplit hpre ht).1

/-- C3, at a concrete input: `view bar` prints the second token of the example
config, and `view baz` does not find a token. -/
theorem view_by_name_witness :
    ((viewTokenCmd.RunE exampleEnv ["bar"] (exampleState ⟨some exampleConfig, true⟩)).1 = .ret none ∧
      (viewTokenCmd.RunE exampleEnv ["bar"] (exampleState ⟨some exampleConfig, true⟩)).2.logged =
        [⟨.info, "token: bar"⟩, ⟨.info, "location: /tmp/bar.json"⟩]) ∧
    (viewTokenCmd.RunE exampleEnv ["baz"] (exampleState ⟨some exampleConfig, true⟩)).1 =
      .ret (some (.base "Token baz could not be found.")) :=
  ⟨(view_by_name exampleEnv (exampleState ⟨some exampleConfig, true⟩) "bar" [] exampleConfig
      rfl rfl).2.2.2 [⟨"foo", "auth.json"⟩] ⟨"bar", "/tmp/bar.json"⟩ [] rfl (by decide) rfl,
   ((view_by_name exampleEnv (exampleState ⟨some exampleConfig, true⟩) "baz" [] exampleConfig
      rfl rfl).1).2 (by decide)⟩

/-- C4: with the config loaded, no positional argument and the `all` flag unset,
when `GetTokenForContext` of the `current-context` setting fails, `view` returns
that error wrapped with its message and prints nothing. -/
theorem view_current_context_failure (env : Env D) (s : State D) (cfg : MesheryCtlConfig)
    (e : GoError)
    (hread : env.ReadConfig env.DefaultConfigPath s.disk = .ok cfg)
    (hall : s.viewAllTokens = false)
    (hget : env.GetTokenForContext cfg (s.viper "current-context") = .error e) :
    (viewTokenCmd.RunE env [] s).1 =
      .ret (some (.wrap e "Could not get token for the current context")) ∧
    (viewTokenCmd.RunE env [] s).2.logged = s.logged := by
  simp [viewTokenCmd.RunE, State.record, hread, hall, hget, Wrap]

/-- C4, at a concrete input: no context of the config is named `local`. -/
theorem view_current_context_failure_witness :
    (viewTokenCmd.RunE exampleEnv [] (exampleState ⟨some ⟨[⟨"foo", "auth.json"⟩], []⟩, true⟩)).1 =
      .ret (some (.wrap (.base "no token is assigned to the context local")
        "Could not get token for the current context")) ∧
    (viewTokenCmd.RunE exampleEnv [] (exampleState ⟨some ⟨[⟨"foo", "auth.json"⟩], []⟩, true⟩)).2.logged =
      [] :=
  view_current_context_failure exampleEnv (exampleState ⟨some ⟨[⟨"foo", "auth.json"⟩], []⟩, true⟩)
    ⟨[⟨"foo", "auth.json"⟩], []⟩ (.base "no token is assigned to the context local") rfl rfl rfl

/-- C5: with the config loaded and the `all` flag set, whatever the positional
arguments, `view` returns `nil` and its output is the header line followed, for
each token of `config.Tokens` in stored order, by its name line and its location
line, and nothing else: one block of two lines per token. -/
theorem view_all (env : Env D) (s : State D) (args : List String) (cfg : MesheryCtlConfig)
    (hread : env.ReadConfig env.DefaultConfigPath s.disk = .ok cfg)
    (hall : s.viewAllTokens = true) :
    (viewTokenCmd.RunE env args s).1 = .ret none ∧
    (viewTokenCmd.RunE env args s).2.logged =
      s.logged ++ ⟨.info, "Listing all available tokens...\n"⟩ ::
        (cfg.Tokens.map (fun t => [(⟨.info, "-> token: " ++ t.Name⟩ : LogEntry),
          ⟨.info, "   location: " ++ t.Location⟩])).flatten ∧
    (cfg.Tokens.map (fun t => [(⟨.info, "-> token: " ++ t.Name⟩ : LogEntry),
      ⟨.info, "   location: " ++ t.Location⟩])).length = cfg.Tokens.length ∧
    (viewTokenCmd.RunE env args s).2.logged.length = s.logged.length + 1 + 2 * cfg.Tokens.length := by
  have hlog : (viewTokenCmd.RunE env args s).2.logged =
      s.logged ++ ⟨.info, "Listing all available tokens...\n"⟩ ::
        (cfg.Tokens.map viewAllBlock).flatten := by
    simp only [viewTokenCmd.RunE, State.record, hread, hall, if_true]
    rw [viewAllLoop_logged]
    simp [State.log]
  have hlen : ∀ ts : List Token, (ts.map viewAllBlock).flatten.length = 2 * ts.length := by
    intro ts
    induction ts with
    | nil => simp
    | cons t ts ih => simp [ih, viewAllBlock]; omega
  refine ⟨?_, hlog, by simp, ?_⟩
  · simp [viewTokenCmd.RunE, State.record, hread, hall]
  · rw [hlog]
    simp [hlen]
    omega

/-- C5, at a concrete input: `view --all baz` on the example config. -/
theorem view_all_witness :
    (viewTokenCmd.RunE exampleEnv ["baz"]
      { exampleState ⟨some exampleConfig, true⟩ with viewAllTokens := true }).1 = .ret none ∧
    (viewTokenCmd.RunE exampleEnv ["baz"]
      { exampleState ⟨some exampleConfig, true⟩ with viewAllTokens := true }).2.logged =
      [⟨.info, "Listing all available tokens...\n"⟩,
       ⟨.info, "-> token: foo"⟩, ⟨.info, "   location: auth.json"⟩,
       ⟨.info, "-> token: bar"⟩, ⟨.info, "   location: /tmp/bar.json"⟩] :=
  ⟨(view_all exampleEnv { exampleState ⟨some exampleConfig, true⟩ with viewAllTokens := true }
      ["baz"] exampleConfig rfl rfl).1,
   by decide⟩

/-- C6: `create` calls `AddTokenToConfig` once, with a token whose name is the
positional argument and whose location is `auth.json` when the filepath flag is
empty and the flag value otherwise; it returns `nil` exactly when that call
succeeds. -/
theorem create_token_passed (env : Env D) (s : State D) (tokenName : String)
    (rest : List String) :
    (createTokenCmd.RunE env (tokenName :: rest) s).2.calls =
      s.calls ++ [.AddTokenToConfig
        ⟨tokenName, if s.tokenPath = "" then "auth.json" else s.tokenPath⟩
        env.DefaultConfigPath] ∧
    ((createTokenCmd.RunE env (tokenName :: rest) s).1 = .ret none ↔
      (env.AddTokenToConfig ⟨tokenName, if s.tokenPath = "" then "auth.json" else s.tokenPath⟩
        env.DefaultConfigPath s.disk).1 = none) := by
  by_cases h : s.tokenPath = ""
  · cases hadd : (env.AddTokenToConfig ⟨tokenName, "auth.json"⟩ env.DefaultConfigPath s.disk).1 <;>
      simp [createTokenCmd.RunE, State.record, State.log, h, hadd]
  · cases hadd : (env.AddTokenToConfig ⟨tokenName, s.tokenPath⟩ env.DefaultConfigPath s.disk).1 <;>
      simp [createTokenCmd.RunE, State.record, State.log, h, hadd]

/-- C6, at concrete inputs: `create baz` without the flag stores `auth.json`,
and with the flag set to `/tmp/t.json` stores that path. -/
theorem create_token_passed_witness :
    (createTokenCmd.RunE exampleEnv ["baz"] (exampleState ⟨some exampleConfig, true⟩)).2.calls =
      [.AddTokenToConfig ⟨"baz", "auth.json"⟩ "config.yaml"] ∧
    (createTokenCmd.RunE exampleEnv ["baz"]
      { exampleState ⟨some exampleConfig, true⟩ with tokenPath := "/tmp/t.json" }).2.calls =
      [.AddTokenToConfig ⟨"baz", "/tmp/t.json"⟩ "config.yaml"] :=
  ⟨(create_token_passed exampleEnv (exampleState ⟨some exampleConfig, true⟩) "baz" []).1,
   (create_token_passed exampleEnv
      { exampleState ⟨some exampleConfig, true⟩ with tokenPath := "/tmp/t.json" } "baz" []).1⟩

/-- C7: once the config is loaded, `set` calls `SetTokenToConfig` once, with the
positional argument as the token name and, as the context, the value of the
`--context` flag when it is non-empty and the `current-context` setting when it
is empty; the only call after it is the `WriteConfig` of the config it returns. -/
theorem set_context_passed (env : Env D) (s : State D) (tokenName : String)
    (rest : List String) (cfg : MesheryCtlConfig)
    (hread : env.ReadConfig env.DefaultConfigPath s.disk = .ok cfg) :
    (setTokenCmd.RunE env (tokenName :: rest) s).2.calls =
      s.calls ++ .ReadConfig env.DefaultConfigPath ::
        .SetTokenToConfig tokenName cfg (if s.ctx = "" then s.viper "current-context" else s.ctx) ::
        (match env.SetTokenToConfig tokenName cfg
            (if s.ctx = "" then s.viper "current-context" else s.ctx) with
          | .ok cfg' => [.WriteConfig cfg']
          | .error _ => []) := by
  by_cases h : s.ctx = ""
  · cases hset : env.SetTokenToConfig tokenName cfg (s.viper "current-context") <;>
      simp [setTokenCmd.RunE, State.record, State.log, h, hread, hset]
  · cases hset : env.SetTokenToConfig tokenName cfg s.ctx <;>
      simp [setTokenCmd.RunE, State.record, State.log, h, hread, hset]

/-- C7, at concrete inputs: without the flag the context is the
`current-context` setting `local`; with `--context staging` it is `staging`. -/
theorem set_context_passed_witness :
    (setTokenCmd.RunE exampleEnv ["bar"] (exampleState ⟨some exampleConfig, true⟩)).2.calls =
      [.ReadConfig "config.yaml", .SetTokenToConfig "bar" exampleConfig "local",
        .WriteConfig { exampleConfig with Contexts := [("local", "bar")] }] ∧
    (setTokenCmd.RunE exampleEnv ["bar"]
      { exampleState ⟨some exampleConfig, true⟩ with ctx := "staging" }).2.calls =
      [.ReadConfig "config.yaml", .SetTokenToConfig "bar" exampleConfig "staging",
        .WriteConfig { exampleConfig with Contexts := [("staging", "bar"), ("local", "foo")] }] :=
  ⟨set_context_passed exampleEnv (exampleState ⟨some exampleConfig, true⟩) "bar" []
      exampleConfig rfl,
   set_context_passed exampleEnv { exampleState ⟨some exampleConfig, true⟩ with ctx := "staging" }
      "bar" [] exampleConfig rfl⟩

/-- C8: `delete` returns `nil` if and only if the config load, the removal
`DeleteTokenFromConfig` and `WriteConfig` all succeed; and when the load and the
removal succeed, `WriteConfig` is called exactly once, with the config the
removal returned. -/
theorem delete_nil_iff (env : Env D) (s : State D) (tokenName : String) (rest : List String) :
    ((deleteTokenCmd.RunE env (tokenName :: rest) s).1 = .ret none ↔
      ∃ cfg cfg', env.ReadConfig env.DefaultConfigPath s.disk = .ok cfg ∧
        env.DeleteTokenFromConfig ⟨tokenName, s.tokenPath⟩ cfg = .ok cfg' ∧
        (env.WriteConfig cfg' s.disk).1 = none) ∧
    (∀ cfg cfg', env.ReadConfig env.DefaultConfigPath s.disk = .ok cfg →
      env.DeleteTokenFromConfig ⟨tokenName, s.tokenPath⟩ cfg = .ok cfg' →
      (deleteTokenCmd.RunE env (tokenName :: rest) s).2.calls =
        s.calls ++ [.ReadConfig env.DefaultConfigPath,
          .DeleteTokenFromConfig ⟨tokenName, s.tokenPath⟩ cfg, .WriteConfig cfg'] ∧
      (deleteTokenCmd.RunE env (tokenName :: rest) s).2.calls.countP Call.isWriteConfig =
        s.calls.countP Call.isWriteConfig + 1 ∧
      (deleteTokenCmd.RunE env (tokenName :: rest) s).2.disk = (env.WriteConfig cfg' s.disk).2) := by
  constructor
  · cases hread : env.ReadConfig env.DefaultConfigPath s.disk with
    | error e => simp [deleteTokenCmd.RunE, State.record, hread]
    | ok cfg =>
      cases hdel : env.DeleteTokenFromConfig ⟨tokenName, s.tokenPath⟩ cfg with
      | error e => simp [deleteTokenCmd.RunE, State.record, hread, hdel]
      | ok cfg' =>
        cases hw : (env.WriteConfig cfg' s.disk).1 <;>
          simp [deleteTokenCmd.RunE, State.record, State.log, hread, hdel, hw]
  · intro cfg cfg' hread hdel
    cases hw : (env.WriteConfig cfg' s.disk).1 <;>
      simp [deleteTokenCmd.RunE, State.record, State.log, hread, hdel, hw, Call.isWriteConfig]

/-- C8, at concrete inputs: `delete bar` on a writable file returns `nil` after
one `WriteConfig` of the config without `bar`; on a file that is not writable it
returns the write error. -/
theorem delete_nil_iff_witness :
    (deleteTokenCmd.RunE exampleEnv ["bar"] (exampleState ⟨some exampleConfig, true⟩)).1 =
      .ret none ∧
    (deleteTokenCmd.RunE exampleEnv ["bar"] (exampleState ⟨some exampleConfig, true⟩)).2.calls =
      [.ReadConfig "config.yaml", .DeleteTokenFromConfig ⟨"bar", ""⟩ exampleConfig,
        .WriteConfig ⟨[⟨"foo", "auth.json"⟩], [("local", "foo")]⟩] ∧
    (deleteTokenCmd.RunE exampleEnv ["bar"] (exampleState ⟨some exampleConfig, false⟩)).1 =
      .ret (some (.base "permission denied")) :=
  ⟨(delete_nil_iff exampleEnv (exampleState ⟨some exampleConfig, true⟩) "bar" []).1.2
      ⟨exampleConfig, ⟨[⟨"foo", "auth.json"⟩], [("local", "foo")]⟩, rfl, rfl, rfl⟩,
   ((delete_nil_iff exampleEnv (exampleState ⟨some exampleConfig, true⟩) "bar" []).2
      exampleConfig ⟨[⟨"foo", "auth.json"⟩], [("local", "foo")]⟩ rfl rfl).1,
   by decide⟩

/-- C10: when the config loads, `list` returns `nil` and prints the header line
followed by the name of each token of `config.Tokens`, one line per token, in
stored order, so that each name is printed as often as it occurs among the
tokens; when the load fails, `list` returns the load error and prints nothing;
in both cases the only call is `ReadConfig` and the persisted config is
unchanged. -/
theorem list_tokens (env : Env D) (s : State D) (args : List String) :
    (∀ cfg, env.ReadConfig env.DefaultConfigPath s.disk = .ok cfg →
      (listTokenCmd.RunE env args s).1 = .ret none ∧
      (listTokenCmd.RunE env args s).2.logged =
        s.logged ++ ⟨.info, "Available tokens: "⟩ ::
          cfg.Tokens.map (fun t => (⟨.info, t.Name⟩ : LogEntry)) ∧
      ∀ n, (cfg.Tokens.map (fun t => (⟨.info, t.Name⟩ : LogEntry))).count ⟨.info, n⟩ =
        (cfg.Tokens.map Token.Name).count n) ∧
    (∀ e, env.ReadConfig env.DefaultConfigPath s.disk = .error e →
      (listTokenCmd.RunE env args s).1 = .ret (some e) ∧
      (listTokenCmd.RunE env args s).2.logged = s.logged) ∧
    (listTokenCmd.RunE env args s).2.calls = s.calls ++ [.ReadConfig env.DefaultConfigPath] ∧
    (listTokenCmd.RunE env args s).2.calls.countP Call.isWriteConfig =
      s.calls.countP Call.isWriteConfig ∧
    (listTokenCmd.RunE env args s).2.disk = s.disk := by
  have hcount : ∀ (ts : List Token) (n : String),
      (ts.map (fun t => (⟨.info, t.Name⟩ : LogEntry))).count ⟨.info, n⟩ =
        (ts.map Token.Name).count n := by
    intro ts n
    induction ts with
    | nil => simp
    | cons t ts ih =>
      by_cases h : t.Name = n
      · simp [List.count_cons, ih, h]
      · simp [List.count_cons, ih, h]
  cases hread : env.ReadConfig env.DefaultConfigPath s.disk with
  | error e => simp [listTokenCmd.RunE, State.record, hread, Call.isWriteConfig]
  | ok cfg =>
    have hrun : listTokenCmd.RunE env args s =
        (.ret none, cfg.Tokens.foldl (fun s t => s.log .info t.Name)
          ((s.record (.ReadConfig env.DefaultConfigPath)).log .info "Available tokens: ")) := by
      simp only [listTokenCmd.RunE, State.record, hread]
    rw [hrun]
    refine ⟨?_, ?_, ?_, ?_, ?_⟩
    · intro cfg2 h2
      cases h2
      refine ⟨rfl, ?_, hcount cfg.Tokens⟩
      simp only [listLoop_logged]
      simp [State.log, State.record]
    · intro e he
      cases he
    · simp only [(listLoop_frame _ _).1]
      simp [State.log, State.record]
    · simp only [(listLoop_frame _ _).1]
      simp [State.log, State.record, Call.isWriteConfig]
    · simp only [(listLoop_frame _ _).2]
      simp [State.log, State.record]

/-- C10, at concrete inputs: the example config lists `foo` and `bar`; an absent
file gives the load error and no output. -/
theorem list_tokens_witness :
    ((listTokenCmd.RunE exampleEnv [] (exampleState ⟨some exampleConfig, true⟩)).1 = .ret none ∧
      (listTokenCmd.RunE exampleEnv [] (exampleState ⟨some exampleConfig, true⟩)).2.logged =
        [⟨.info, "Available tokens: "⟩, ⟨.info, "foo"⟩, ⟨.info, "bar"⟩]) ∧
    ((listTokenCmd.RunE exampleEnv [] (exampleState ⟨none, true⟩)).1 =
        .ret (some (.base "open config.yaml: no such file or directory")) ∧
      (listTokenCmd.RunE exampleEnv [] (exampleState ⟨none, true⟩)).2.logged = []) :=
  ⟨⟨((list_tokens exampleEnv (exampleState ⟨some exampleConfig, true⟩) []).1
        exampleConfig rfl).1,
     ((list_tokens exampleEnv (exampleState ⟨some exampleConfig, true⟩) []).1
        exampleConfig rfl).2.1⟩,
   (list_tokens exampleEnv (exampleState ⟨none, true⟩) []).2.1
      (.base "open config.yaml: no such file or directory") rfl⟩

/-- C9 fails as stated: with the config file absent, `list` returns the error of
`ReadConfig` itself, with exactly the message of that error and no message put
in front of it; and with a file that is not writable, `delete` returns the
error of `WriteConfig` itself. -/
theorem load_and_write_errors_returned_bare :
    exampleEnv.ReadConfig exampleEnv.DefaultConfigPath (exampleState ⟨none, true⟩).disk =
      .error (.base "open config.yaml: no such file or directory") ∧
    (listTokenCmd.RunE exampleEnv [] (exampleState ⟨none, true⟩)).1 =
      .ret (some (.base "open config.yaml: no such file or directory")) ∧
    GoError.wraps (.base "open config.yaml: no such file or directory")
      (.base "open config.yaml: no such file or directory") = false ∧
    GoError.Error (.base "open config.yaml: no such file or directory") =
      "open config.yaml: no such file or directory" ∧
    (exampleEnv.WriteConfig ⟨[⟨"foo", "auth.json"⟩], [("local", "foo")]⟩
      (exampleState ⟨some exampleConfig, false⟩).disk).1 = some (.base "permission denied") ∧
    (deleteTokenCmd.RunE exampleEnv ["bar"] (exampleState ⟨some exampleConfig, false⟩)).1 =
      .ret (some (.base "permission denied")) ∧
    GoError.wraps (.base "permission denied") (.base "permission denied") = false :=
  ⟨rfl, by decide, by decide, by decide, by decide, by decide, by decide⟩

/-- C9, amended: an error of a token operation of the accessor
(`AddTokenToConfig`, `DeleteTokenFromConfig`, `SetTokenToConfig`,
`GetTokenForContext`) is returned wrapped, the handler message followed by a
colon in front of the message of the underlying error; an error of `ReadConfig`
is returned by `delete`, `set`, `list` and `view` as it is, and an error of
`WriteConfig` is returned by `delete` as it is, both without a message in
front. -/
theorem handler_error_context (env : Env D) (s : State D) (tokenName : String)
    (rest args : List String) (e : GoError) :
    ((env.AddTokenToConfig ⟨tokenName, if s.tokenPath = "" then "auth.json" else s.tokenPath⟩
        env.DefaultConfigPath s.disk).1 = some e →
      (createTokenCmd.RunE env (tokenName :: rest) s).1 =
        .ret (some (.wrap e "Could not create specified token to config"))) ∧
    (∀ cfg, env.ReadConfig env.DefaultConfigPath s.disk = .ok cfg →
      env.DeleteTokenFromConfig ⟨tokenName, s.tokenPath⟩ cfg = .error e →
      (deleteTokenCmd.RunE env (tokenName :: rest) s).1 =
        .ret (some (.wrap e ("Could not delete token \"" ++ tokenName ++ "\" from config")))) ∧
    (∀ cfg, env.ReadConfig env.DefaultConfigPath s.disk = .ok cfg →
      env.SetTokenToConfig tokenName cfg
        (if s.ctx = "" then s.viper "current-context" else s.ctx) = .error e →
      (setTokenCmd.RunE env (tokenName :: rest) s).1 =
        .ret (some (.wrap e ("Could not set token \"" ++ tokenName ++ "\" on context " ++
          (if s.ctx = "" then s.viper "current-context" else s.ctx))))) ∧
    (∀ cfg, env.ReadConfig env.DefaultConfigPath s.disk = .ok cfg →
      s.viewAllTokens = false →
      env.GetTokenForContext cfg (s.viper "current-context") = .error e →
      (viewTokenCmd.RunE env [] s).1 =
        .ret (some (.wrap e "Could not get token for the current context"))) ∧
    (∀ msg, GoError.wraps (.wrap e msg) e = true ∧
      GoError.Error (.wrap e msg) = msg ++ ": " ++ e.Error) ∧
    (env.ReadConfig env.DefaultConfigPath s.disk = .error e →
      (deleteTokenCmd.RunE env (tokenName :: rest) s).1 = .ret (some e) ∧
      (setTokenCmd.RunE env (tokenName :: rest) s).1 = .ret (some e) ∧
      (listTokenCmd.RunE env args s).1 = .ret (some e) ∧
      (viewTokenCmd.RunE env args s).1 = .ret (some e)) ∧
    (∀ cfg cfg', env.ReadConfig env.DefaultConfigPath s.disk = .ok cfg →
      env.DeleteTokenFromConfig ⟨tokenName, s.tokenPath⟩ cfg = .ok cfg' →
      (env.WriteConfig cfg' s.disk).1 = some e →
      (deleteTokenCmd.RunE env (tokenName :: rest) s).1 = .ret (some e)) := by
  refine ⟨?_, ?_, ?_, ?_, ?_, ?_, ?_⟩
  · intro hadd
    by_cases h : s.tokenPath = ""
    · simp only [h, if_true] at hadd
      simp [createTokenCmd.RunE, State.record, h, hadd, Wrap]
    · simp only [h, if_false] at hadd
      simp [createTokenCmd.RunE, State.record, h, hadd, Wrap]
  · intro cfg hread hdel
    simp [deleteTokenCmd.RunE, State.record, hread, hdel, Wrapf]
  · intro cfg hread hset
    by_cases h : s.ctx = ""
    · simp only [h, if_true] at hset
      simp [setTokenCmd.RunE, State.record, h, hread, hset, Wrapf]
    · simp only [h, if_false] at hset
      simp [setTokenCmd.RunE, State.record, h, hread, hset, Wrapf]
  · intro cfg hread hall hget
    simp [viewTokenCmd.RunE, State.record, hread, hall, hget, Wrap]
  · intro msg
    simp [GoError.wraps, GoError.Error]
  · intro hread
    refine ⟨?_, ?_, ?_, ?_⟩
    · simp [deleteTokenCmd.RunE, State.record, hread]
    · by_cases h : s.ctx = "" <;> simp [setTokenCmd.RunE, State.record, h, hread]
    · simp [listTokenCmd.RunE, State.record, hread]
    · simp [viewTokenCmd.RunE, State.record, hread]
  · intro cfg cfg' hread hdel hw
    simp [deleteTokenCmd.RunE, State.record, hread, hdel, hw]

/-- C9, amended, at concrete inputs: the wrapped error of `delete baz`, with its
message, and the bare load error of `view` on an absent file. -/
theorem handler_error_context_witness :
    (deleteTokenCmd.RunE exampleEnv ["baz"] (exampleState ⟨some exampleConfig, true⟩)).1 =
      .ret (some (.wrap (.base "no token found with the name baz")
        "Could not delete token \"baz\" from config")) ∧
    GoError.Error (.wrap (.base "no token found with the name baz")
        "Could not delete token \"baz\" from config") =
      "Could not delete token \"baz\" from config: no token found with the name baz" ∧
    (viewTokenCmd.RunE exampleEnv ["foo"] (exampleState ⟨none, true⟩)).1 =
      .ret (some (.base "open config.yaml: no such file or directory")) :=
  ⟨(handler_error_context exampleEnv (exampleState ⟨some exampleConfig, true⟩) "baz" [] []
      (.base "no token found with the name baz")).2.1 exampleConfig rfl rfl,
   by decide,
   ((handler_error_context exampleEnv (exampleState ⟨none, true⟩) "foo" [] ["foo"]
      (.base "open config.yaml: no such file or directory")).2.2.2.2.2.1 rfl).2.2.2⟩

end Claims

end Meshery
